import Mathlib

/-!
Verification of the notification dispatch/retry pipeline of the
go-to-opticals repository (src/lib/notifications.ts and
src/types/notifications.ts), shallowly embedded in Lean 4.

JavaScript runtime values that can appear in a template data bag are
modelled by `JSValue`; the module-level mutable state of the
`NotificationService` class (notification log array, preferences map,
clock, pseudo-random source) is modelled by an explicit `ServiceState`
threaded through the operations.
-/

/-- A JavaScript value as it can appear in a template data bag or in log
metadata: a string, an integer number, a boolean, `null` or `undefined`. -/
inductive JSValue where
  | vStr : String → JSValue
  | vNum : Int → JSValue
  | vBool : Bool → JSValue
  | vNull : JSValue
  | vUndefined : JSValue
deriving DecidableEq, Repr

/-- JavaScript truthiness of a `JSValue` (as tested by `x || y`). -/
def JSValue.truthy : JSValue → Bool
  | .vStr s => s ≠ ""
  | .vNum n => n ≠ 0
  | .vBool b => b
  | .vNull => false
  | .vUndefined => false

/-- JavaScript string coercion `String(x)` of a `JSValue`. -/
def JSValue.toJSString : JSValue → String
  | .vStr s => s
  | .vNum n => toString n
  | .vBool b => if b then "true" else "false"
  | .vNull => "null"
  | .vUndefined => "undefined"

/-- A template data bag: a total map from keys to JS values, with absent
keys reading as `undefined` (exactly how `data[variable]` behaves). -/
def DataBag : Type := String → JSValue

/-- The empty data bag (every lookup yields `undefined`). -/
def DataBag.empty : DataBag := fun _ => .vUndefined

/-!
### Template engine (src/types/notifications.ts)

`TEMPLATE_VARIABLE_REGEX` matches two opening braces, a captured
nonempty greedy run of characters other than the closing brace, then two
closing braces.  Because the character class excludes the closing brace,
backtracking can never shorten the captured run, so the regex matches at
a position iff the maximal nonempty run of non-closing-brace characters
after the two opening braces is immediately followed by two closing
braces.
-/

/-- Try to match `TEMPLATE_VARIABLE_REGEX` at the head of the character
list; on success return the captured variable name and the remainder of
the input after the match. -/
def scanPlaceholder : List Char → Option (List Char × List Char)
  | a :: b :: cs =>
    if a = '{' ∧ b = '{' then
      let name := cs.takeWhile (fun c => c ≠ '}')
      let after := cs.dropWhile (fun c => c ≠ '}')
      if after.take 2 = ['}', '}'] ∧ name ≠ [] then some (name, after.drop 2)
      else none
    else none
  | _ => none

/-- The replacement text for one placeholder match: `data[variable] ||
match` string-coerced — the bag value when truthy, otherwise the matched
text `\x7b\x7bname\x7d\x7d` verbatim. -/
def placeholderSubst (d : DataBag) (name : List Char) : List Char :=
  if (d (String.mk name)).truthy then (d (String.mk name)).toJSString.data
  else '{' :: '{' :: name ++ '}' :: '}' :: ([] : List Char)

/-- Embedding of `template.replace(TEMPLATE_VARIABLE_REGEX, (match, variable) =>
data[variable] || match)` on character lists: scan left to right; at a
placeholder substitute `placeholderSubst` and continue after the match;
otherwise emit one character and continue.  The `fuel` argument only
makes the recursion structural; any fuel at least the input length gives
the same result (`replaceAuxF_congr`). -/
def replaceAuxF (d : DataBag) : Nat → List Char → List Char
  | 0, _ => []
  | fuel + 1, l =>
    match l with
    | [] => []
    | c :: cs =>
      match scanPlaceholder (c :: cs) with
      | some (name, rest) => placeholderSubst d name ++ replaceAuxF d fuel rest
      | none => c :: replaceAuxF d fuel cs

/-- The scan with just enough fuel. -/
def replaceAux (d : DataBag) (l : List Char) : List Char :=
  replaceAuxF d l.length l

/-- Source function `replaceTemplateVariables` from src/types/notifications.ts. -/
def replaceTemplateVariables (template : String) (data : DataBag) : String :=
  String.mk (replaceAux data template.data)

/-- A template decomposes into literal characters and `\x7b\x7bname\x7d\x7d`
placeholder occurrences. -/
inductive TemplateToken where
  | lit : Char → TemplateToken
  | ph : List Char → TemplateToken
deriving DecidableEq, Repr

/-- The decomposition of a template into literal characters and
placeholder occurrences, following the same left-to-right scan as the
regex engine (fuelled like `replaceAuxF`). -/
def templateTokensF : Nat → List Char → List TemplateToken
  | 0, _ => []
  | fuel + 1, l =>
    match l with
    | [] => []
    | c :: cs =>
      match scanPlaceholder (c :: cs) with
      | some (name, rest) => .ph name :: templateTokensF fuel rest
      | none => .lit c :: templateTokensF fuel cs

/-- The source text of one token: a literal character stands for itself,
a placeholder for `\x7b\x7bname\x7d\x7d`. -/
def TemplateToken.text : TemplateToken → List Char
  | .lit c => [c]
  | .ph name => '{' :: '{' :: name ++ '}' :: '}' :: ([] : List Char)

/-- Modelled from the spec: the rendering of one token under the
amended substitution policy — a placeholder whose bag value is truthy
becomes the value's string coercion, any other placeholder (key absent,
`null`, `undefined`, or falsy such as `0`, `false`, `""`) stays verbatim
with its double braces, and literal characters are copied. -/
def TemplateToken.render (d : DataBag) : TemplateToken → List Char
  | .lit c => [c]
  | .ph name => placeholderSubst d name

/-!
### Data model (src/types/notifications.ts)
-/

inductive NotificationType where
  | sms
  | email
deriving DecidableEq, Repr

/-- The string value of a `NotificationType` union member. -/
def NotificationType.asString : NotificationType → String
  | .sms => "sms"
  | .email => "email"

inductive NotificationStatus where
  | pending
  | sent
  | failed
  | delivered
  | bounced
deriving DecidableEq, Repr

/-- String value of a `NotificationStatus` union member. -/
def NotificationStatus.asString : NotificationStatus → String
  | .pending => "pending"
  | .sent => "sent"
  | .failed => "failed"
  | .delivered => "delivered"
  | .bounced => "bounced"

/-- Quiet-hours window (`start`/`end`/`timezone`; the source field `end`
is a Lean keyword and is embedded as `stop`). -/
structure QuietHours where
  start : String
  stop : String
  timezone : String
deriving DecidableEq, Repr

structure NotificationPreferences where
  userId : String
  email : Bool
  sms : Bool
  appointmentReminders : Bool
  satisfactionSurveys : Bool
  marketing : Bool
  timezone : String
  language : String
  quietHours : Option QuietHours
deriving DecidableEq, Repr

structure Recipient where
  phone : Option String
  email : Option String
  name : Option String
deriving DecidableEq, Repr

structure NotificationRequest where
  type : NotificationType
  recipient : Recipient
  template : String
  data : DataBag
  priority : Option String

structure NotificationResponse where
  success : Bool
  messageId : Option String
  status : NotificationStatus
  provider : Option String
  error : Option String
  deliveryTime : Option Nat
  cost : Option ℚ
deriving DecidableEq, Repr

/-- The `metadata` object stored on a log entry:
`\x7bappointmentId: request.data.appointmentId, doctorName:
request.data.doctorName, priority: request.priority\x7d`. -/
structure LogMetadata where
  appointmentId : JSValue
  doctorName : JSValue
  priority : JSValue
deriving DecidableEq, Repr

/-- Reading the metadata object as a template data bag (as the retry
path does via `data: log.metadata`). -/
def LogMetadata.toBag (m : LogMetadata) : DataBag := fun k =>
  if k = "appointmentId" then m.appointmentId
  else if k = "doctorName" then m.doctorName
  else if k = "priority" then m.priority
  else .vUndefined

structure NotificationLog where
  id : String
  type : NotificationType
  recipient : String
  template : String
  status : NotificationStatus
  messageId : Option String
  provider : Option String
  error : Option String
  cost : Option ℚ
  sentAt : Nat
  retryCount : Nat
  metadata : LogMetadata
deriving DecidableEq, Repr

/-- One structured event passed to the audit sink `AuditLogger.log`. -/
inductive AuditDetails where
  | sendDetails (notificationId recipient template : String)
      (status : NotificationStatus) (cost : Option ℚ)
  | errorDetails (error : String)
deriving DecidableEq, Repr

structure AuditEvent where
  userId : String
  action : String
  resource : String
  details : AuditDetails
  success : Bool
  errorMessage : Option String
deriving DecidableEq, Repr

/-- The module-level mutable state of the notification service plus its
ambient environment: the `notificationLogs` array, the
`notificationPreferences` map, the sequence of events emitted to the
audit sink, the pseudo-random delivery oracle (`rand i = true` models a
`Math.random()` draw above the channel's failure threshold) with its
position, a fresh-identifier counter for `Date.now()`-and-random based
ids, the current timestamp, and the wall clock rendered as a local
`HH:MM:SS` string for a given IANA timezone name. -/
structure ServiceState where
  logs : List NotificationLog
  prefs : List (String × NotificationPreferences)
  audits : List AuditEvent
  rand : Nat → Bool
  randIdx : Nat
  nextId : Nat
  time : Nat
  clock : String → String

/-!
### Notification service (src/lib/notifications.ts)
-/

/-- JS truthiness of an optional string field (`undefined` and `""` are
falsy). -/
def optionStrTruthy : Option String → Bool
  | some s => s ≠ ""
  | none => false

/-- JS `a || b` on an optional string against a string default. -/
def optionStrOr (a : Option String) (b : String) : String :=
  match a with
  | some s => if s = "" then b else s
  | none => b

/-- The key `request.recipient.email || request.recipient.phone || ''`: the key
under which preferences are looked up, and also the `recipient` field
stored on the log entry. -/
def recipientKey (r : NotificationRequest) : String :=
  optionStrOr r.recipient.email (optionStrOr r.recipient.phone "")

/-- The enumerated template names accepted by `validateRequest`. -/
def notificationTemplateNames : List String :=
  ["satisfactionSurvey", "appointmentReminder", "appointmentConfirmation"]

/-- The per-template message bodies of `NOTIFICATION_CONFIG.templates`
(sms body and email text body; the email subject and html variants are
never read by the service, which uses `template.email.text`). -/
structure TemplateDef where
  sms : String
  emailText : String
deriving DecidableEq, Repr

/-- Keyed lookup into `NOTIFICATION_CONFIG.templates`.  The email bodies of
the source are multi-line template literals; their text is embedded with
escaped braces and without the decorative indentation, which no claim
inspects. -/
def notificationTemplates (templateName : String) : Option TemplateDef :=
  if templateName = "satisfactionSurvey" then
    some { sms := "Hi \x7b\x7bname\x7d\x7d, how was your visit with \x7b\x7bdoctorName\x7d\x7d? Rate your experience: \x7b\x7bsurveyUrl\x7d\x7d Reply STOP to unsubscribe.",
           emailText := "How was your visit?\n\nHi \x7b\x7bname\x7d\x7d,\n\nWe hope your appointment with \x7b\x7bdoctorName\x7d\x7d went well. Your feedback helps us provide better care.\n\nAppointment Details:\n- Date: \x7b\x7bappointmentDate\x7d\x7d\n- Time: \x7b\x7bappointmentTime\x7d\x7d\n- Location: \x7b\x7blocation\x7d\x7d\n\nRate your experience: \x7b\x7bsurveyUrl\x7d\x7d\n\nThank you for choosing GoTo Optical!" }
  else if templateName = "appointmentReminder" then
    some { sms := "Reminder: You have an appointment with \x7b\x7bdoctorName\x7d\x7d on \x7b\x7bappointmentDate\x7d\x7d at \x7b\x7bappointmentTime\x7d\x7d. Location: \x7b\x7blocation\x7d\x7d. Reply STOP to unsubscribe.",
           emailText := "Appointment Reminder\n\nHi \x7b\x7bname\x7d\x7d,\n\nThis is a friendly reminder about your upcoming appointment.\n\nAppointment Details:\n- Date: \x7b\x7bappointmentDate\x7d\x7d\n- Time: \x7b\x7bappointmentTime\x7d\x7d\n- Doctor: \x7b\x7bdoctorName\x7d\x7d\n- Location: \x7b\x7blocation\x7d\x7d\n\nPlease arrive 15 minutes before your appointment time.\n\nIf you need to reschedule, please call us at (555) 123-4567." }
  else if templateName = "appointmentConfirmation" then
    some { sms := "Your appointment with \x7b\x7bdoctorName\x7d\x7d has been confirmed for \x7b\x7bappointmentDate\x7d\x7d at \x7b\x7bappointmentTime\x7d\x7d. Location: \x7b\x7blocation\x7d\x7d. Confirmation: \x7b\x7bappointmentId\x7d\x7d",
           emailText := "Appointment Confirmed\n\nHi \x7b\x7bname\x7d\x7d,\n\nYour appointment has been successfully scheduled!\n\nAppointment Details:\n- Date: \x7b\x7bappointmentDate\x7d\x7d\n- Time: \x7b\x7bappointmentTime\x7d\x7d\n- Doctor: \x7b\x7bdoctorName\x7d\x7d\n- Location: \x7b\x7blocation\x7d\x7d\n- Confirmation: \x7b\x7bappointmentId\x7d\x7d\n\nPlease arrive 15 minutes before your appointment time.\n\nIf you need to reschedule, please call us at (555) 123-4567." }
  else none

/-- Source function `getTemplate`: the sms body for SMS, the email text body otherwise. -/
def getTemplate (templateName : String) (type : NotificationType) : Option String :=
  (notificationTemplates templateName).map fun t =>
    match type with
    | .sms => t.sms
    | .email => t.emailText

structure ValidationResult where
  isValid : Bool
  errors : List String
deriving DecidableEq, Repr

/-- Source function `validateRequest`.  The `!request.type || !['sms','email'].includes`
check is embedded as written but can never fire for a typed
`NotificationType`; the `!request.data` check can never fire because a
data bag is always present in the embedding. -/
def validateRequest (r : NotificationRequest) : ValidationResult :=
  let errors : List String :=
    (if r.type ≠ .sms ∧ r.type ≠ .email then ["Invalid notification type"] else []) ++
    (if r.type = .sms ∧ ¬ optionStrTruthy r.recipient.phone then
      ["Phone number required for SMS notifications"] else []) ++
    (if r.type = .email ∧ ¬ optionStrTruthy r.recipient.email then
      ["Email address required for email notifications"] else []) ++
    (if r.template = "" ∨ ¬ notificationTemplateNames.contains r.template then
      ["Invalid template"] else [])
  { isValid := errors.isEmpty, errors := errors }

/-- The hard-coded `defaultPreferences` of `getUserPreferences`. -/
def defaultPreferences (userId : String) : NotificationPreferences :=
  { userId := userId
    email := true
    sms := true
    appointmentReminders := true
    satisfactionSurveys := true
    marketing := false
    timezone := "America/New_York"
    language := "en"
    quietHours := none }

/-- Source function `getUserPreferences`: the stored record, else the defaults. -/
def getUserPreferences (userId : String) (s : ServiceState) : NotificationPreferences :=
  match s.prefs.lookup userId with
  | some p => p
  | none => defaultPreferences userId

/-- Lexicographic (code-unit) strict comparison of character lists: the
order JavaScript uses for `<`, `<=`, `>=` on strings. -/
def strLtB : List Char → List Char → Bool
  | [], [] => false
  | [], _ :: _ => true
  | _ :: _, [] => false
  | a :: as, b :: bs => if a < b then true else if a = b then strLtB as bs else false

/-- JS `a < b` on strings. -/
def jsStrLt (a b : String) : Bool := strLtB a.data b.data

/-- JS `a <= b` on strings (`¬ b < a` for this total order). -/
def jsStrLe (a b : String) : Bool := !(strLtB b.data a.data)

/-- Source function `shouldSendNotification`: the preference gate.  `clock tz` is the
current wall-clock time rendered as a local `HH:MM:SS` string in
timezone `tz` (`new Date().toLocaleTimeString` with `hour12:false`), and
the quiet-hours test is plain string comparison
(`currentTime >= start && currentTime <= end`) against the
`HH:MM`-formatted bounds. -/
def shouldSendNotification (r : NotificationRequest) (p : NotificationPreferences)
    (clock : String → String) : Bool :=
  if r.type = .email ∧ p.email = false then false
  else if r.type = .sms ∧ p.sms = false then false
  else if r.template = "satisfactionSurvey" ∧ p.satisfactionSurveys = false then false
  else if r.template = "appointmentReminder" ∧ p.appointmentReminders = false then false
  else
    match p.quietHours with
    | some qh =>
      let currentTime := clock qh.timezone
      if jsStrLe qh.start currentTime && jsStrLe currentTime qh.stop then false else true
    | none => true

/-- Source function `sendSMS`: one pseudo-random draw decides delivery; `rand randIdx =
false` models `Math.random() < 0.05`. -/
def sendSMS (s : ServiceState) : NotificationResponse × ServiceState :=
  if s.rand s.randIdx = false then
    ({ success := false, messageId := none, status := .failed, provider := some "mock",
       error := some "SMS delivery failed", deliveryTime := none, cost := none },
     { s with randIdx := s.randIdx + 1 })
  else
    ({ success := true, messageId := some ("sms_" ++ toString s.nextId), status := .sent,
       provider := some "mock", error := none, deliveryTime := some s.time,
       cost := some (1 / 100) },
     { s with randIdx := s.randIdx + 1, nextId := s.nextId + 1 })

/-- Source function `sendEmail`: one pseudo-random draw decides delivery; `rand randIdx
= false` models `Math.random() < 0.03`. -/
def sendEmail (s : ServiceState) : NotificationResponse × ServiceState :=
  if s.rand s.randIdx = false then
    ({ success := false, messageId := none, status := .failed, provider := some "mock",
       error := some "Email delivery failed", deliveryTime := none, cost := none },
     { s with randIdx := s.randIdx + 1 })
  else
    ({ success := true, messageId := some ("email_" ++ toString s.nextId), status := .sent,
       provider := some "mock", error := none, deliveryTime := some s.time,
       cost := some (1 / 1000) },
     { s with randIdx := s.randIdx + 1, nextId := s.nextId + 1 })

/-- The sink `AuditLogger.log`: one structured event emitted to the audit sink. -/
def auditLog (e : AuditEvent) (s : ServiceState) : ServiceState :=
  { s with audits := s.audits ++ [e] }

/-- The `catch` block of `sendNotification`: convert the thrown message
to a failed response and emit the error audit event. -/
def sendCatch (msg : String) (r : NotificationRequest) (s : ServiceState) :
    NotificationResponse × ServiceState :=
  ({ success := false, messageId := none, status := .failed, provider := none,
     error := some msg, deliveryTime := none, cost := none },
   auditLog
     { userId := "system"
       action := "SEND_NOTIFICATION"
       resource := "/api/notifications/" ++ r.type.asString
       details := .errorDetails msg
       success := false
       errorMessage := some msg } s)

/-- The `priority` field as stored in the log metadata (`request.priority`, a
string or `undefined`). -/
def priorityValue : Option String → JSValue
  | some p => .vStr p
  | none => .vUndefined

/-- The channel dispatch `if (request.type === 'sms') sendSMS else
sendEmail`. -/
def deliver (r : NotificationRequest) (s : ServiceState) :
    NotificationResponse × ServiceState :=
  if r.type = .sms then sendSMS s else sendEmail s

/-- The failed response of the preference-gate denial path. -/
def blockedResponse : NotificationResponse :=
  { success := false, messageId := none, status := .failed, provider := none,
    error := some "Notification blocked by user preferences",
    deliveryTime := none, cost := none }

/-- The `NotificationLog` row constructed by `sendNotification`'s
delivery path (fresh id from the counter, `retryCount = 0`, fields
copied from the delivery response and the request). -/
def mkLogEntry (r : NotificationRequest) (s : ServiceState) : NotificationLog :=
  { id := "notification_" ++ toString (deliver r s).2.nextId
    type := r.type
    recipient := recipientKey r
    template := r.template
    status := (deliver r s).1.status
    messageId := (deliver r s).1.messageId
    provider := (deliver r s).1.provider
    error := (deliver r s).1.error
    cost := (deliver r s).1.cost
    sentAt := (deliver r s).2.time
    retryCount := 0
    metadata :=
      { appointmentId := r.data "appointmentId"
        doctorName := r.data "doctorName"
        priority := priorityValue r.priority } }

/-- The audit event emitted by `sendNotification`'s delivery path. -/
def mkAuditEvent (r : NotificationRequest) (s : ServiceState) : AuditEvent :=
  { userId := "system"
    action := "SEND_NOTIFICATION"
    resource := "/api/notifications/" ++ r.type.asString
    details := .sendDetails (mkLogEntry r s).id (mkLogEntry r s).recipient r.template
      (deliver r s).1.status (deliver r s).1.cost
    success := (deliver r s).1.success
    errorMessage := (deliver r s).1.error }

/-- Source function `sendNotification`. -/
def sendNotification (r : NotificationRequest) (s : ServiceState) :
    NotificationResponse × ServiceState :=
  let v := validateRequest r
  if v.isValid = false then
    sendCatch ("Invalid notification request: " ++ String.intercalate ", " v.errors) r s
  else
    let preferences := getUserPreferences (recipientKey r) s
    if shouldSendNotification r preferences s.clock = false then
      (blockedResponse, s)
    else
      match getTemplate r.template r.type with
      | none =>
        -- unreachable: validation guarantees the template exists
        sendCatch "Template lookup failed" r s
      | some template =>
        let content := replaceTemplateVariables template r.data
        let response := (deliver r s).1
        let s1 := (deliver r s).2
        let logEntry := mkLogEntry r s
        let s2 := { s1 with logs := s1.logs ++ [logEntry], nextId := s1.nextId + 1,
                            time := s1.time + 1 }
        let s3 := auditLog (mkAuditEvent r s) s2
        let _ := content
        (response, s3)

/-- Source function `getNotificationLogs(limit, offset)`: `Array.prototype.sort` sorts
the module-level array **in place** (stably, comparator
`(a, b) => b.sentAt - a.sentAt`, i.e. send time descending) and returns
the same array, of which `slice(offset, offset + limit)` is then copied
and returned.  The mutated array is reflected in the returned state.
All stable sorts of a list under a total preorder agree, so the
ECMAScript stable sort is embedded as the (stable, computable)
insertion sort. -/
def getNotificationLogs (limit offset : Nat) (s : ServiceState) :
    List NotificationLog × ServiceState :=
  let sorted := s.logs.insertionSort (fun a b => b.sentAt ≤ a.sentAt)
  (((sorted.drop offset).take limit), { s with logs := sorted })

structure StatsByType where
  sms : Nat
  email : Nat
deriving DecidableEq, Repr

structure StatsByTemplate where
  satisfactionSurvey : Nat
  appointmentReminder : Nat
  appointmentConfirmation : Nat
deriving DecidableEq, Repr

structure NotificationStats where
  total : Nat
  successful : Nat
  failed : Nat
  pending : Nat
  totalCost : ℚ
  byType : StatsByType
  byTemplate : StatsByTemplate
deriving DecidableEq, Repr

/-- Source function `getNotificationStats`. -/
def getNotificationStats (s : ServiceState) : NotificationStats :=
  { total := s.logs.length
    successful := (s.logs.filter fun log =>
      log.status = .sent ∨ log.status = .delivered).length
    failed := (s.logs.filter fun log => log.status = .failed).length
    pending := (s.logs.filter fun log => log.status = .pending).length
    totalCost := (s.logs.map fun log => log.cost.getD 0).sum
    byType :=
      { sms := (s.logs.filter fun log => log.type = .sms).length
        email := (s.logs.filter fun log => log.type = .email).length }
    byTemplate :=
      { satisfactionSurvey :=
          (s.logs.filter fun log => log.template = "satisfactionSurvey").length
        appointmentReminder :=
          (s.logs.filter fun log => log.template = "appointmentReminder").length
        appointmentConfirmation :=
          (s.logs.filter fun log => log.template = "appointmentConfirmation").length } }

/-- A `Partial<NotificationPreferences>`: each field is present
(`some`) or absent (`none`); for the optional `quietHours` field a
present value may itself be a window or `undefined`. -/
structure PreferencesPatch where
  userId : Option String := none
  email : Option Bool := none
  sms : Option Bool := none
  appointmentReminders : Option Bool := none
  satisfactionSurveys : Option Bool := none
  marketing : Option Bool := none
  timezone : Option String := none
  language : Option String := none
  quietHours : Option (Option QuietHours) := none

/-- The spread `\x7b...existing, ...preferences, userId\x7d`: every
field present in the patch overrides the existing record, and the
trailing explicit `userId` wins over both. -/
def mergePreferences (existing : NotificationPreferences) (p : PreferencesPatch)
    (userId : String) : NotificationPreferences :=
  { userId := userId
    email := p.email.getD existing.email
    sms := p.sms.getD existing.sms
    appointmentReminders := p.appointmentReminders.getD existing.appointmentReminders
    satisfactionSurveys := p.satisfactionSurveys.getD existing.satisfactionSurveys
    marketing := p.marketing.getD existing.marketing
    timezone := p.timezone.getD existing.timezone
    language := p.language.getD existing.language
    quietHours := p.quietHours.getD existing.quietHours }

/-- The map update `Map.prototype.set`: keyed overwrite in the association list. -/
def prefsSet (userId : String) (v : NotificationPreferences)
    (l : List (String × NotificationPreferences)) :
    List (String × NotificationPreferences) :=
  (userId, v) :: l.filter fun e => e.1 ≠ userId

/-- Source function `updateUserPreferences`. -/
def updateUserPreferences (userId : String) (p : PreferencesPatch) (s : ServiceState) :
    ServiceState :=
  let existing := getUserPreferences userId s
  let updated := mergePreferences existing p userId
  { s with prefs := prefsSet userId updated s.prefs }

/-- Reconstruction of a minimal request from a log entry in
`retryFailedNotifications`. -/
def reconstructRequest (log : NotificationLog) : NotificationRequest :=
  { type := log.type
    recipient :=
      match log.type with
      | .sms => { phone := some log.recipient, email := none, name := none }
      | .email => { phone := none, email := some log.recipient, name := none }
    template := log.template
    data := log.metadata.toBag
    priority := none }

/-- The in-place mutation of a retried log entry on success:
`log.status = 'sent'; log.retryCount++`. -/
def upgradeLog (l : NotificationLog) : NotificationLog :=
  { l with status := .sent, retryCount := l.retryCount + 1 }

/-- The positions of the snapshot `notificationLogs.filter(log =>
log.status === 'failed' && log.retryCount < 3)`.  JS `filter` yields
references into the array; since the loop only appends new entries and
rewrites selected slots, a reference is faithfully modelled by the
entry's (stable) position. -/
def retryCandidates (s : ServiceState) : List Nat :=
  (List.range s.logs.length).filter fun i =>
    match s.logs[i]? with
    | some log => log.status = .failed ∧ log.retryCount < 3
    | none => false

/-- The retry loop body over the snapshot positions, threading the
state and the count of successful retries. -/
def retryLoop : List Nat → ServiceState → Nat → Nat × ServiceState
  | [], s, acc => (acc, s)
  | i :: rest, s, acc =>
    match s.logs[i]? with
    | none => retryLoop rest s acc
    | some log =>
      let response := (sendNotification (reconstructRequest log) s).1
      let s1 := (sendNotification (reconstructRequest log) s).2
      if response.success then
        retryLoop rest { s1 with logs := s1.logs.set i (upgradeLog log) } (acc + 1)
      else
        retryLoop rest s1 acc

/-- Source function `retryFailedNotifications`. -/
def retryFailedNotifications (s : ServiceState) : Nat × ServiceState :=
  retryLoop (retryCandidates s) s 0


/-- The preference-gate denial test of `sendNotification`: the request
validates and `shouldSendNotification` refuses it. -/
def prefBlocked (r : NotificationRequest) (s : ServiceState) : Bool :=
  (validateRequest r).isValid &&
    !(shouldSendNotification r (getUserPreferences (recipientKey r) s) s.clock)

/-- Well-formedness of a token: a placeholder name is nonempty and free
of closing braces. -/
def TemplateToken.wf : TemplateToken → Bool
  | .lit _ => true
  | .ph name => (!name.isEmpty) && name.all (fun c => c != '}')

/-!
### Concrete fixtures

Closed states, requests and log rows used by witnesses and
counterexamples.
-/

/-- An empty service state with an always-successful delivery oracle and
a fixed wall clock. -/
def emptyState : ServiceState :=
  { logs := [], prefs := [], audits := [], rand := fun _ => true, randIdx := 0,
    nextId := 0, time := 10, clock := fun _ => "12:00:00" }

/-- A valid SMS request. -/
def smsRequest : NotificationRequest :=
  { type := .sms, recipient := { phone := some "5551234", email := none, name := none },
    template := "appointmentReminder", data := DataBag.empty, priority := none }

/-- An SMS request with no phone number. -/
def noPhoneRequest : NotificationRequest :=
  { type := .sms, recipient := { phone := none, email := none, name := none },
    template := "appointmentReminder", data := DataBag.empty, priority := none }

/-- A valid email request to `a@b.com`. -/
def emailRequest : NotificationRequest :=
  { type := .email, recipient := { phone := none, email := some "a@b.com", name := none },
    template := "appointmentReminder", data := DataBag.empty, priority := none }

/-- A state whose stored preferences for `a@b.com` opt out of email. -/
def blockedPrefsState : ServiceState :=
  { emptyState with
    prefs := [("a@b.com", { defaultPreferences "a@b.com" with email := false })] }

/-- A delivered log row. -/
def sentLog : NotificationLog :=
  { id := "log_a", type := .sms, recipient := "5551234",
    template := "appointmentReminder", status := .sent, messageId := none,
    provider := none, error := none, cost := none, sentAt := 0, retryCount := 0,
    metadata := { appointmentId := .vUndefined, doctorName := .vUndefined,
                  priority := .vUndefined } }

/-- A state holding two log rows in ascending send-time order. -/
def unsortedState : ServiceState :=
  { emptyState with logs := [sentLog, { sentLog with id := "log_b", sentAt := 5 }] }

/-- A failed log row eligible for retry. -/
def failedLog : NotificationLog := { sentLog with status := .failed }

/-- A state holding one retryable failed log row. -/
def retryState : ServiceState := { emptyState with logs := [failedLog] }

/-- A failed log row at the retry ceiling. -/
def maxedLog : NotificationLog := { failedLog with retryCount := 3 }

/-- A state holding one failed log row at the retry ceiling. -/
def maxedState : ServiceState := { emptyState with logs := [maxedLog] }

/-- Preferences with a quiet-hours window crossing midnight. -/
def crossMidnightPrefs : NotificationPreferences :=
  { defaultPreferences "a@b.com" with
    quietHours := some { start := "22:00", stop := "06:00",
                         timezone := "America/New_York" } }

/-- A patch supplying a `userId` and one flag, leaving the rest absent. -/
def marketingPatch : PreferencesPatch :=
  { userId := some "someone-else", marketing := some true }

/-!
### Theorems
-/

theorem scanPlaceholder_length {l name rest : List Char}
    (h : scanPlaceholder l = some (name, rest)) :
    rest.length + 5 ≤ l.length := by
  match l with
  | [] => simp [scanPlaceholder] at h
  | [a] => simp [scanPlaceholder] at h
  | a :: b :: cs =>
    have hsplit : (cs.takeWhile (fun c => c ≠ '}')).length +
        (cs.dropWhile (fun c => c ≠ '}')).length = cs.length := by
      rw [← List.length_append, List.takeWhile_append_dropWhile]
    simp only [scanPlaceholder] at h
    split at h
    · split at h
      · rename_i hcond
        obtain ⟨htake, hname⟩ := hcond
        simp only [Option.some.injEq, Prod.mk.injEq] at h
        obtain ⟨h1, h2⟩ := h
        have hlen1 : 1 ≤ (cs.takeWhile (fun c => c ≠ '}')).length :=
          List.length_pos.mpr hname
        have hlen2 : ((cs.dropWhile (fun c => c ≠ '}')).take 2).length = 2 := by
          rw [htake]; rfl
        rw [List.length_take] at hlen2
        have hlen3 : rest.length = (cs.dropWhile (fun c => c ≠ '}')).length - 2 := by
          rw [← h2, List.length_drop]
        simp only [List.length_cons]
        omega
      · exact absurd h (by simp)
    · exact absurd h (by simp)

/-- The structure of a matched placeholder: the name is a nonempty run of
characters other than the closing brace. -/
theorem scanPlaceholder_name {l name rest : List Char}
    (h : scanPlaceholder l = some (name, rest)) :
    name ≠ [] ∧ ∀ c ∈ name, c ≠ '}' := by
  match l with
  | [] => simp [scanPlaceholder] at h
  | [a] => simp [scanPlaceholder] at h
  | a :: b :: cs =>
    simp only [scanPlaceholder] at h
    split at h
    · split at h
      · rename_i hcond
        obtain ⟨-, hname⟩ := hcond
        simp only [Option.some.injEq, Prod.mk.injEq] at h
        obtain ⟨h1, -⟩ := h
        subst h1
        exact ⟨hname, fun c hc => by simpa using List.mem_takeWhile_imp hc⟩
      · exact absurd h (by simp)
    · exact absurd h (by simp)

/-- The characters consumed by a placeholder match are exactly
`"\x7b\x7bname\x7d\x7d" ++ rest`. -/
theorem scanPlaceholder_decomp {l name rest : List Char}
    (h : scanPlaceholder l = some (name, rest)) :
    l = '{' :: '{' :: name ++ '}' :: '}' :: rest := by
  match l with
  | [] => simp [scanPlaceholder] at h
  | [a] => simp [scanPlaceholder] at h
  | a :: b :: cs =>
    simp only [scanPlaceholder] at h
    split at h
    · rename_i hab
      split at h
      · rename_i hcond
        obtain ⟨htake, -⟩ := hcond
        simp only [Option.some.injEq, Prod.mk.injEq] at h
        obtain ⟨h1, h2⟩ := h
        obtain ⟨ha, hb⟩ := hab
        subst ha; subst hb; subst h1; subst h2
        conv_lhs => rw [← cs.takeWhile_append_dropWhile (p := fun c => c ≠ '}'),
          ← (cs.dropWhile (fun c => c ≠ '}')).take_append_drop 2, htake]
        simp
      · exact absurd h (by simp)
    · exact absurd h (by simp)
theorem replaceAuxF_congr (d : DataBag) :
    ∀ n₁, ∀ l : List Char, ∀ n₂, l.length ≤ n₁ → l.length ≤ n₂ →
      replaceAuxF d n₁ l = replaceAuxF d n₂ l := by
  intro n₁
  induction n₁ with
  | zero =>
    intro l n₂ h1 _
    rw [List.length_eq_zero.mp (Nat.le_zero.mp h1)]
    cases n₂ <;> rfl
  | succ m ih =>
    intro l n₂ h1 h2
    match l with
    | [] => cases n₂ <;> rfl
    | c :: cs =>
      match n₂, h2 with
      | 0, h2 => exact absurd h2 (by simp)
      | n + 1, h2 =>
        simp only [replaceAuxF]
        cases hscan : scanPlaceholder (c :: cs) with
        | none =>
          dsimp only
          simp only [List.length_cons] at h1 h2
          rw [ih cs n (by omega) (by omega)]
        | some pr =>
          obtain ⟨name, rest⟩ := pr
          dsimp only
          have hr := scanPlaceholder_length hscan
          simp only [List.length_cons] at h1 h2 hr
          rw [ih rest n (by omega) (by omega)]
theorem replaceAux_nil (d : DataBag) : replaceAux d [] = [] := rfl

theorem replaceAux_cons (d : DataBag) (c : Char) (cs : List Char) :
    replaceAux d (c :: cs) =
      match scanPlaceholder (c :: cs) with
      | some (name, rest) => placeholderSubst d name ++ replaceAux d rest
      | none => c :: replaceAux d cs := by
  show replaceAuxF d (cs.length + 1) (c :: cs) = _
  simp only [replaceAuxF]
  cases hscan : scanPlaceholder (c :: cs) with
  | none => dsimp only [replaceAux]
  | some pr =>
    obtain ⟨name, rest⟩ := pr
    dsimp only [replaceAux]
    have hr := scanPlaceholder_length hscan
    simp only [List.length_cons] at hr
    rw [replaceAuxF_congr d cs.length rest rest.length (by omega) le_rfl]
theorem templateTokensF_congr :
    ∀ n₁, ∀ l : List Char, ∀ n₂, l.length ≤ n₁ → l.length ≤ n₂ →
      templateTokensF n₁ l = templateTokensF n₂ l := by
  intro n₁
  induction n₁ with
  | zero =>
    intro l n₂ h1 _
    rw [List.length_eq_zero.mp (Nat.le_zero.mp h1)]
    cases n₂ <;> rfl
  | succ m ih =>
    intro l n₂ h1 h2
    match l with
    | [] => cases n₂ <;> rfl
    | c :: cs =>
      match n₂, h2 with
      | 0, h2 => exact absurd h2 (by simp)
      | n + 1, h2 =>
        simp only [templateTokensF]
        cases hscan : scanPlaceholder (c :: cs) with
        | none =>
          dsimp only
          simp only [List.length_cons] at h1 h2
          rw [ih cs n (by omega) (by omega)]
        | some pr =>
          obtain ⟨name, rest⟩ := pr
          dsimp only
          have hr := scanPlaceholder_length hscan
          simp only [List.length_cons] at h1 h2 hr
          rw [ih rest n (by omega) (by omega)]

/-- The token decomposition of a template. -/
def templateTokens (l : List Char) : List TemplateToken :=
  templateTokensF l.length l

theorem templateTokens_nil : templateTokens [] = [] := rfl

theorem templateTokens_cons (c : Char) (cs : List Char) :
    templateTokens (c :: cs) =
      match scanPlaceholder (c :: cs) with
      | some (name, rest) => .ph name :: templateTokens rest
      | none => .lit c :: templateTokens cs := by
  show templateTokensF (cs.length + 1) (c :: cs) = _
  simp only [templateTokensF]
  cases hscan : scanPlaceholder (c :: cs) with
  | none => dsimp only [templateTokens]
  | some pr =>
    obtain ⟨name, rest⟩ := pr
    dsimp only [templateTokens]
    have hr := scanPlaceholder_length hscan
    simp only [List.length_cons] at hr
    rw [templateTokensF_congr cs.length rest rest.length (by omega) le_rfl]

/-- Scan-structure induction: to prove a property of every template it
suffices to cover the empty template, a placeholder match at the head,
and a literal character at the head. -/
theorem templateRec {motive : List Char → Prop}
    (h0 : motive [])
    (h1 : ∀ c cs name rest, scanPlaceholder (c :: cs) = some (name, rest) →
      motive rest → motive (c :: cs))
    (h2 : ∀ c cs, scanPlaceholder (c :: cs) = none → motive cs → motive (c :: cs)) :
    ∀ l, motive l := by
  have key : ∀ n, ∀ l : List Char, l.length ≤ n → motive l := by
    intro n
    induction n with
    | zero =>
      intro l hl
      rw [List.length_eq_zero.mp (Nat.le_zero.mp hl)]
      exact h0
    | succ m ih =>
      intro l hl
      match l with
      | [] => exact h0
      | c :: cs =>
        cases hscan : scanPlaceholder (c :: cs) with
        | none =>
          simp only [List.length_cons] at hl
          exact h2 c cs hscan (ih cs (by omega))
        | some pr =>
          obtain ⟨name, rest⟩ := pr
          have hr := scanPlaceholder_length hscan
          simp only [List.length_cons] at hl hr
          exact h1 c cs name rest hscan (ih rest (by omega))
  exact fun l => key l.length l le_rfl
/-- Concatenating the token texts recovers the template. -/
theorem templateTokens_text (l : List Char) :
    ((templateTokens l).map TemplateToken.text).flatten = l := by
  induction l using templateRec with
  | h0 => simp [templateTokens_nil]
  | h1 c cs name rest h ih =>
    rw [templateTokens_cons, h]
    simp only [List.map_cons, List.flatten_cons, ih]
    rw [scanPlaceholder_decomp h]
    simp [TemplateToken.text]
  | h2 c cs h ih =>
    rw [templateTokens_cons, h]
    simp [TemplateToken.text, ih]

/-- The source's replacement equals token-wise rendering. -/
theorem replaceAux_eq_render (d : DataBag) (l : List Char) :
    replaceAux d l = ((templateTokens l).map (TemplateToken.render d)).flatten := by
  induction l using templateRec with
  | h0 => simp [templateTokens_nil, replaceAux_nil]
  | h1 c cs name rest h ih =>
    rw [templateTokens_cons, h, replaceAux_cons, h]
    simp [TemplateToken.render, ih]
  | h2 c cs h ih =>
    rw [templateTokens_cons, h, replaceAux_cons, h]
    simp [TemplateToken.render, ih]

/-- Every placeholder token has a nonempty name free of closing braces. -/
theorem templateTokens_ph_wf (l : List Char) :
    ∀ t ∈ templateTokens l, ∀ name, t = .ph name → name ≠ [] ∧ ∀ c ∈ name, c ≠ '}' := by
  induction l using templateRec with
  | h0 => simp [templateTokens_nil]
  | h1 c cs name rest h ih =>
    rw [templateTokens_cons, h]
    intro t ht nm hnm
    rcases List.mem_cons.mp ht with rfl | ht'
    · cases hnm
      exact scanPlaceholder_name h
    · exact ih t ht' nm hnm
  | h2 c cs h ih =>
    rw [templateTokens_cons, h]
    intro t ht nm hnm
    rcases List.mem_cons.mp ht with rfl | ht'
    · cases hnm
    · exact ih t ht' nm hnm

/-- Every token produced by the scan is well-formed. -/
theorem templateTokens_wf (l : List Char) :
    (templateTokens l).all TemplateToken.wf = true := by
  rw [List.all_eq_true]
  intro t ht
  cases t with
  | lit c => rfl
  | ph name =>
    obtain ⟨h1, h2⟩ := templateTokens_ph_wf l _ ht name rfl
    simp only [TemplateToken.wf, Bool.and_eq_true, Bool.not_eq_true']
    constructor
    · simpa [List.isEmpty_iff] using h1
    · rw [List.all_eq_true]
      intro c hc
      simpa using h2 c hc

/-- C1 (counterexample): the claim as stated says a placeholder whose
key is present with the non-null value `0` is replaced by `"0"`; the
source's `data[variable] || match` leaves it verbatim because `0` is
falsy. -/
theorem c1_counterexample :
    replaceTemplateVariables "\x7b\x7bx\x7d\x7d"
        (fun n => if n = "x" then JSValue.vNum 0 else JSValue.vUndefined) =
      "\x7b\x7bx\x7d\x7d" ∧
    ("\x7b\x7bx\x7d\x7d" : String) ≠ "0" :=
  ⟨rfl, by decide⟩

/-- C1 (amended): `replaceTemplateVariables` replaces exactly the
`\x7b\x7bname\x7d\x7d` occurrences whose bag value is truthy with the
value's string coercion, and leaves every other placeholder — key
absent, or present with a falsy value such as `0`, `false`, `""`,
`null` or `undefined` — verbatim including its double braces: the
template decomposes into tokens whose texts concatenate back to the
template, every placeholder token has a well-formed name, and the
rendered output is the token-wise substitution. -/
theorem c1_render_policy (template : String) (data : DataBag) :
    (replaceTemplateVariables template data).data =
      ((templateTokens template.data).map (TemplateToken.render data)).flatten ∧
    ((templateTokens template.data).map TemplateToken.text).flatten = template.data ∧
    (templateTokens template.data).all TemplateToken.wf = true :=
  ⟨replaceAux_eq_render data template.data, templateTokens_text template.data,
    templateTokens_wf template.data⟩

/-- The two channel counts partition the log collection. -/
theorem filter_type_partition (logs : List NotificationLog) :
    (logs.filter fun log => log.type = .sms).length +
      (logs.filter fun log => log.type = .email).length = logs.length := by
  induction logs with
  | nil => rfl
  | cons a t ih => cases h : a.type <;> simp [List.filter_cons, h] <;> omega

/-- C9: `getNotificationStats` satisfies `total = logs.length` and
`byType.sms + byType.email = total`, since every log entry's channel is
`sms` or `email`. -/
theorem c9_stats_consistency (s : ServiceState) :
    (getNotificationStats s).total = s.logs.length ∧
    (getNotificationStats s).byType.sms + (getNotificationStats s).byType.email =
      (getNotificationStats s).total := by
  refine ⟨rfl, ?_⟩
  simpa [getNotificationStats] using filter_type_partition s.logs

/-- Transitivity of the lexicographic comparison. -/
theorem strLtB_trans {a : List Char} : ∀ {b c : List Char},
    strLtB a b = true → strLtB b c = true → strLtB a c = true := by
  induction a with
  | nil =>
    intro b c h1 h2
    cases b with
    | nil => simp [strLtB] at h1
    | cons y ys =>
      cases c with
      | nil => simp [strLtB] at h2
      | cons z zs => rfl
  | cons x xs ih =>
    intro b c h1 h2
    cases b with
    | nil => simp [strLtB] at h1
    | cons y ys =>
      cases c with
      | nil => simp [strLtB] at h2
      | cons z zs =>
        simp only [strLtB] at h1 h2 ⊢
        split at h1
        case isTrue hxy =>
          split at h2
          case isTrue hyz => rw [if_pos (lt_trans hxy hyz)]
          case isFalse hyz =>
            split at h2
            case isTrue hyez =>
              rw [if_pos (show x < z by rw [← hyez]; exact hxy)]
            case isFalse hyez => exact absurd h2 (by simp)
        case isFalse hxy =>
          split at h1
          case isTrue hxey =>
            split at h2
            case isTrue hyz => rw [if_pos (show x < z by rw [hxey]; exact hyz)]
            case isFalse hyz =>
              split at h2
              case isTrue hyez =>
                have hxz : x = z := hxey.trans hyez
                rw [if_neg (show ¬ x < z by rw [hxz]; exact lt_irrefl z),
                  if_pos hxz]
                exact ih h1 h2
              case isFalse hyez => exact absurd h2 (by simp)
          case isFalse hxey => exact absurd h1 (by simp)

/-- Totality of the lexicographic comparison. -/
theorem strLtB_trichotomy : ∀ (a b : List Char),
    strLtB a b = true ∨ a = b ∨ strLtB b a = true := by
  intro a
  induction a with
  | nil =>
    intro b
    cases b with
    | nil => exact Or.inr (Or.inl rfl)
    | cons y ys => exact Or.inl rfl
  | cons x xs ih =>
    intro b
    cases b with
    | nil => exact Or.inr (Or.inr rfl)
    | cons y ys =>
      rcases lt_trichotomy x y with h | h | h
      · exact Or.inl (by simp [strLtB, h])
      · subst h
        rcases ih ys with h2 | h2 | h2
        · exact Or.inl (by simp [strLtB, h2])
        · exact Or.inr (Or.inl (by rw [h2]))
        · exact Or.inr (Or.inr (by simp [strLtB, h2]))
      · exact Or.inr (Or.inr (by simp [strLtB, h]))

/-- C7: a quiet-hours window whose `start` exceeds its `end` in string
order (a window crossing midnight such as 22:00–06:00) can never fire:
for every wall clock the gate decides exactly as it would with no
quiet-hours window at all. -/
theorem c7_cross_midnight_never_denies (r : NotificationRequest)
    (p : NotificationPreferences) (clock : String → String) (qh : QuietHours)
    (hqh : p.quietHours = some qh) (hcross : jsStrLt qh.stop qh.start = true) :
    shouldSendNotification r p clock =
      shouldSendNotification r { p with quietHours := none } clock := by
  have hq : ¬ ((jsStrLe qh.start (clock qh.timezone) &&
      jsStrLe (clock qh.timezone) qh.stop) = true) := by
    simp only [jsStrLe, jsStrLt, Bool.and_eq_true, Bool.not_eq_true'] at hcross ⊢
    rintro ⟨h1, h2⟩
    rcases strLtB_trichotomy qh.stop.data (clock qh.timezone).data with h | h | h
    · exact absurd h (by simp [h2])
    · rw [h] at hcross
      exact absurd hcross (by simp [h1])
    · exact absurd (strLtB_trans h hcross) (by simp [h1])
  simp only [shouldSendNotification, hqh]
  rw [if_neg hq]

/-- C7 witness: the 22:00–06:00 window at 23:30 local time. -/
theorem c7_witness :
    crossMidnightPrefs.quietHours =
      some { start := "22:00", stop := "06:00", timezone := "America/New_York" } ∧
    shouldSendNotification emailRequest crossMidnightPrefs (fun _ => "23:30:00") =
      shouldSendNotification emailRequest
        { crossMidnightPrefs with quietHours := none } (fun _ => "23:30:00") ∧
    shouldSendNotification emailRequest crossMidnightPrefs (fun _ => "23:30:00") = true :=
  ⟨rfl,
    c7_cross_midnight_never_denies emailRequest crossMidnightPrefs
      (fun _ => "23:30:00") _ rfl (by decide),
    by decide⟩

/-- C10: after `updateUserPreferences(k, p)`, reading back the
preferences for `k` yields a record whose `userId` is `k` (a `userId`
inside the patch is overridden by the trailing explicit field), and
every field absent from the patch keeps the value `getUserPreferences`
returned before the update. -/
theorem c10_update_preserves (s : ServiceState) (k : String) (p : PreferencesPatch) :
    (getUserPreferences k (updateUserPreferences k p s)).userId = k ∧
    (p.email = none → (getUserPreferences k (updateUserPreferences k p s)).email =
      (getUserPreferences k s).email) ∧
    (p.sms = none → (getUserPreferences k (updateUserPreferences k p s)).sms =
      (getUserPreferences k s).sms) ∧
    (p.appointmentReminders = none →
      (getUserPreferences k (updateUserPreferences k p s)).appointmentReminders =
      (getUserPreferences k s).appointmentReminders) ∧
    (p.satisfactionSurveys = none →
      (getUserPreferences k (updateUserPreferences k p s)).satisfactionSurveys =
      (getUserPreferences k s).satisfactionSurveys) ∧
    (p.marketing = none → (getUserPreferences k (updateUserPreferences k p s)).marketing =
      (getUserPreferences k s).marketing) ∧
    (p.timezone = none → (getUserPreferences k (updateUserPreferences k p s)).timezone =
      (getUserPreferences k s).timezone) ∧
    (p.language = none → (getUserPreferences k (updateUserPreferences k p s)).language =
      (getUserPreferences k s).language) ∧
    (p.quietHours = none → (getUserPreferences k (updateUserPreferences k p s)).quietHours =
      (getUserPreferences k s).quietHours) := by
  have hafter : getUserPreferences k (updateUserPreferences k p s) =
      mergePreferences (getUserPreferences k s) p k := by
    simp [getUserPreferences, updateUserPreferences, prefsSet, List.lookup]
  rw [hafter]
  refine ⟨rfl, ?_, ?_, ?_, ?_, ?_, ?_, ?_, ?_⟩
  all_goals intro h
  all_goals simp [mergePreferences, h]

/-- C10 witness: a patch that only sets `marketing` and smuggles in a
different `userId`. -/
theorem c10_witness :
    marketingPatch.userId = some "someone-else" ∧
    marketingPatch.email = none ∧
    (getUserPreferences "a@b.com"
      (updateUserPreferences "a@b.com" marketingPatch emptyState)).userId = "a@b.com" ∧
    (getUserPreferences "a@b.com"
      (updateUserPreferences "a@b.com" marketingPatch emptyState)).email =
      (getUserPreferences "a@b.com" emptyState).email :=
  ⟨rfl, rfl, (c10_update_preserves emptyState "a@b.com" marketingPatch).1,
    (c10_update_preserves emptyState "a@b.com" marketingPatch).2.1 rfl⟩

/-- The delivery simulator leaves the log collection untouched. -/
theorem deliver_logs (r : NotificationRequest) (s : ServiceState) :
    (deliver r s).2.logs = s.logs := by
  unfold deliver sendSMS sendEmail
  split <;> split <;> rfl

/-- The delivery simulator emits nothing to the audit sink. -/
theorem deliver_audits (r : NotificationRequest) (s : ServiceState) :
    (deliver r s).2.audits = s.audits := by
  unfold deliver sendSMS sendEmail
  split <;> split <;> rfl

/-- The delivery simulator leaves the preferences store untouched. -/
theorem deliver_prefs (r : NotificationRequest) (s : ServiceState) :
    (deliver r s).2.prefs = s.prefs := by
  unfold deliver sendSMS sendEmail
  split <;> split <;> rfl

/-- A successful simulated delivery reports status `sent`. -/
theorem deliver_success_status (r : NotificationRequest) (s : ServiceState)
    (h : (deliver r s).1.success = true) : (deliver r s).1.status = .sent := by
  unfold deliver sendSMS sendEmail at h ⊢
  split at h <;> split at h <;> simp_all

/-- The validation-failure path: `sendNotification` reduces to the
catch block with the joined error messages. -/
theorem sendNotification_invalid (r : NotificationRequest) (s : ServiceState)
    (hv : (validateRequest r).isValid = false) :
    sendNotification r s =
      sendCatch ("Invalid notification request: " ++
        String.intercalate ", " (validateRequest r).errors) r s := by
  simp only [sendNotification, hv]
  rw [if_pos trivial]

/-- The preference-denial path: `sendNotification` returns the blocked
response and the state completely unchanged — in particular no
notification log entry and no audit event is produced. -/
theorem sendNotification_blocked (r : NotificationRequest) (s : ServiceState)
    (hv : (validateRequest r).isValid = true)
    (hb : shouldSendNotification r (getUserPreferences (recipientKey r) s) s.clock
      = false) :
    sendNotification r s = (blockedResponse, s) := by
  simp only [sendNotification, hv, hb]
  simp

/-- The delivery path: `sendNotification` returns the simulator's
response, appends the constructed log row and emits the audit event. -/
theorem sendNotification_delivers (r : NotificationRequest) (s : ServiceState)
    (hv : (validateRequest r).isValid = true)
    (hb : shouldSendNotification r (getUserPreferences (recipientKey r) s) s.clock
      = true)
    (tpl : String) (htpl : getTemplate r.template r.type = some tpl) :
    sendNotification r s =
      ((deliver r s).1,
        auditLog (mkAuditEvent r s)
          { (deliver r s).2 with
            logs := (deliver r s).2.logs ++ [mkLogEntry r s]
            nextId := (deliver r s).2.nextId + 1
            time := (deliver r s).2.time + 1 }) := by
  simp only [sendNotification, hv, hb, htpl]
  simp

theorem prefBlocked_true_iff (r : NotificationRequest) (s : ServiceState) :
    prefBlocked r s = true ↔
      ((validateRequest r).isValid = true ∧
        shouldSendNotification r (getUserPreferences (recipientKey r) s) s.clock
          = false) := by
  simp [prefBlocked, Bool.and_eq_true, Bool.not_eq_true']

/-- Effect of one `sendNotification` call on the log collection: either
the log is unchanged and the call failed, or exactly one fresh entry
(with `retryCount = 0`, and status `sent` when the call succeeded) is
appended at the end. -/
theorem sendNotification_log_effect (r : NotificationRequest) (s : ServiceState) :
    ((sendNotification r s).2.logs = s.logs ∧ (sendNotification r s).1.success = false)
    ∨ (∃ e, (sendNotification r s).2.logs = s.logs ++ [e] ∧ e.retryCount = 0 ∧
        ((sendNotification r s).1.success = true → e.status = .sent)) := by
  by_cases hv : (validateRequest r).isValid = true
  · by_cases hb : shouldSendNotification r
        (getUserPreferences (recipientKey r) s) s.clock = false
    · rw [sendNotification_blocked r s hv hb]
      exact Or.inl ⟨rfl, rfl⟩
    · have hb' : shouldSendNotification r
          (getUserPreferences (recipientKey r) s) s.clock = true := by
        simpa using hb
      cases htpl : getTemplate r.template r.type with
      | none =>
        left
        simp only [sendNotification, hv, hb', htpl]
        exact ⟨by simp [sendCatch, auditLog], rfl⟩
      | some tpl =>
        right
        rw [sendNotification_delivers r s hv hb' tpl htpl]
        refine ⟨mkLogEntry r s, ?_, rfl, ?_⟩
        · simp only [auditLog]
          rw [deliver_logs]
        · intro hs
          exact deliver_success_status r s hs
  · have hv' : (validateRequest r).isValid = false := by simpa using hv
    rw [sendNotification_invalid r s hv']
    exact Or.inl ⟨by simp [sendCatch, auditLog], rfl⟩

/-- C2 (counterexample): a send blocked by stored preferences returns
the blocked `failed` response, but writes no log row at all, so the
subsequent bulk retry selects nothing and re-attempts nothing. -/
theorem c2_counterexample :
    (sendNotification emailRequest blockedPrefsState).1.error =
      some "Notification blocked by user preferences" ∧
    (sendNotification emailRequest blockedPrefsState).1.status = .failed ∧
    (sendNotification emailRequest blockedPrefsState).2.logs = [] ∧
    retryCandidates (sendNotification emailRequest blockedPrefsState).2 = [] ∧
    (retryFailedNotifications (sendNotification emailRequest blockedPrefsState).2).1
      = 0 :=
  ⟨rfl, rfl, rfl, rfl, rfl⟩

/-- C2 (amended): a notification attempt denied by the preference gate
returns success `false` with status `failed` and the preference-block
error, but leaves the service state — in particular the log collection —
completely unchanged, so the attempt is never seen, selected, or
re-attempted by `retryFailedNotifications`: retrying after the blocked
call is the same as retrying before it. -/
theorem c2_blocked_not_retried (r : NotificationRequest) (s : ServiceState)
    (hv : (validateRequest r).isValid = true)
    (hb : shouldSendNotification r (getUserPreferences (recipientKey r) s) s.clock
      = false) :
    (sendNotification r s).1.success = false ∧
    (sendNotification r s).1.status = .failed ∧
    (sendNotification r s).1.error = some "Notification blocked by user preferences" ∧
    (sendNotification r s).2 = s ∧
    retryFailedNotifications (sendNotification r s).2 = retryFailedNotifications s := by
  rw [sendNotification_blocked r s hv hb]
  exact ⟨rfl, rfl, rfl, rfl, rfl⟩

/-- C2 witness: the blocked-email scenario. -/
theorem c2_witness :
    (validateRequest emailRequest).isValid = true ∧
    (sendNotification emailRequest blockedPrefsState).2 = blockedPrefsState :=
  ⟨rfl, (c2_blocked_not_retried emailRequest blockedPrefsState rfl rfl).2.2.2.1⟩

/-- C3 (counterexample): a preference-blocked call emits no audit event
at all, refuting "exactly one audit event for every request". -/
theorem c3_counterexample :
    (sendNotification emailRequest blockedPrefsState).2.audits = [] ∧
    (sendNotification emailRequest blockedPrefsState).1.error =
      some "Notification blocked by user preferences" :=
  ⟨rfl, rfl⟩

/-- C3 (amended): every `sendNotification` call emits exactly one
structured event to the audit sink — on validation failure, delivery
failure, delivery success, and the internal error path alike — except
the preference-gate denial path, which emits none. -/
theorem c3_audit_emission (r : NotificationRequest) (s : ServiceState) :
    (sendNotification r s).2.audits.length =
      s.audits.length + (if prefBlocked r s = true then 0 else 1) := by
  by_cases hv : (validateRequest r).isValid = true
  · by_cases hb : shouldSendNotification r
        (getUserPreferences (recipientKey r) s) s.clock = false
    · have hblk : prefBlocked r s = true := (prefBlocked_true_iff r s).mpr ⟨hv, hb⟩
      rw [sendNotification_blocked r s hv hb, hblk]
      simp
    · have hb' : shouldSendNotification r
          (getUserPreferences (recipientKey r) s) s.clock = true := by
        simpa using hb
      have hblk : prefBlocked r s = false := by
        rw [← Bool.not_eq_true]
        rw [prefBlocked_true_iff]
        rintro ⟨-, h⟩
        rw [h] at hb'
        cases hb'
      rw [hblk]
      cases htpl : getTemplate r.template r.type with
      | none =>
        simp only [sendNotification, hv, hb', htpl]
        simp [sendCatch, auditLog]
      | some tpl =>
        rw [sendNotification_delivers r s hv hb' tpl htpl]
        simp only [auditLog]
        rw [deliver_audits]
        simp
  · have hv' : (validateRequest r).isValid = false := by simpa using hv
    have hblk : prefBlocked r s = false := by
      simp [prefBlocked, hv']
    rw [sendNotification_invalid r s hv', hblk]
    simp [sendCatch, auditLog]

/-- C8: an SMS request without a phone number fails validation: the
response is `success = false`, status `failed`, with the joined
validation message mentioning the phone requirement; the preference
gate and the delivery simulator are never consulted (the call reduces
to the catch path, the log collection and random cursor are untouched)
but one audit event is still emitted. -/
theorem c8_sms_without_phone (r : NotificationRequest) (s : ServiceState)
    (h1 : r.type = .sms) (h2 : optionStrTruthy r.recipient.phone = false) :
    "Phone number required for SMS notifications" ∈ (validateRequest r).errors ∧
    sendNotification r s =
      sendCatch ("Invalid notification request: " ++
        String.intercalate ", " (validateRequest r).errors) r s ∧
    (sendNotification r s).1.success = false ∧
    (sendNotification r s).1.status = .failed ∧
    (sendNotification r s).1.error = some ("Invalid notification request: " ++
      String.intercalate ", " (validateRequest r).errors) ∧
    (sendNotification r s).2.logs = s.logs ∧
    (sendNotification r s).2.randIdx = s.randIdx ∧
    (sendNotification r s).2.audits.length = s.audits.length + 1 := by
  have hmem : "Phone number required for SMS notifications" ∈ (validateRequest r).errors := by
    simp [validateRequest, h1, h2]
  have hvalid : (validateRequest r).isValid = false := by
    have hne : (validateRequest r).errors ≠ [] := List.ne_nil_of_mem hmem
    show (validateRequest r).errors.isEmpty = false
    exact List.isEmpty_eq_false.mpr hne
  have hsend := sendNotification_invalid r s hvalid
  rw [hsend]
  refine ⟨hmem, hsend ▸ rfl, rfl, rfl, rfl, ?_, ?_, ?_⟩ <;>
    simp [sendCatch, auditLog]

/-- C8 witness: the phone-less SMS request against the empty state. -/
theorem c8_witness :
    noPhoneRequest.type = .sms ∧
    optionStrTruthy noPhoneRequest.recipient.phone = false ∧
    "Phone number required for SMS notifications" ∈ (validateRequest noPhoneRequest).errors :=
  ⟨rfl, rfl, (c8_sms_without_phone noPhoneRequest emptyState rfl rfl).1⟩

/-- C4 (counterexample): reading the logs reorders the stored
collection in place — on a state whose two rows are in ascending send
time, the stored collection afterwards differs from the one before. -/
theorem c4_counterexample :
    (getNotificationLogs 50 0 unsortedState).2.logs ≠ unsortedState.logs := by
  decide

/-- C4 (amended): `getNotificationLogs` returns the entries sorted by
send time descending, sliced to `[offset, offset + limit)`, but it is
not log-collection-preserving: the stored collection is reordered in
place into that sorted order — the same entries as a multiset (a
permutation), not necessarily in the same order.  All other state
components are unchanged. -/
theorem c4_getLogs_sorts_in_place (s : ServiceState) (limit offset : Nat) :
    (getNotificationLogs limit offset s).2.logs.Perm s.logs ∧
    (getNotificationLogs limit offset s).2.logs.Sorted
      (fun a b => b.sentAt ≤ a.sentAt) ∧
    (getNotificationLogs limit offset s).1 =
      ((getNotificationLogs limit offset s).2.logs.drop offset).take limit ∧
    (getNotificationLogs limit offset s).2.prefs = s.prefs ∧
    (getNotificationLogs limit offset s).2.audits = s.audits ∧
    (getNotificationLogs limit offset s).2.randIdx = s.randIdx ∧
    (getNotificationLogs limit offset s).2.nextId = s.nextId ∧
    (getNotificationLogs limit offset s).2.time = s.time := by
  haveI htot : IsTotal NotificationLog (fun a b => b.sentAt ≤ a.sentAt) :=
    ⟨fun a b => le_total b.sentAt a.sentAt⟩
  haveI htr : IsTrans NotificationLog (fun a b => b.sentAt ≤ a.sentAt) :=
    ⟨fun _ _ _ h1 h2 => le_trans h2 h1⟩
  refine ⟨List.perm_insertionSort _ s.logs, List.sorted_insertionSort _ s.logs,
    rfl, rfl, rfl, rfl, rfl, rfl⟩

/-- One send never shrinks the log collection. -/
theorem send_logs_length (r : NotificationRequest) (s : ServiceState) :
    s.logs.length ≤ (sendNotification r s).2.logs.length := by
  rcases sendNotification_log_effect r s with ⟨h, -⟩ | ⟨e, h, -, -⟩ <;> simp [h]

/-- One send preserves every existing log position. -/
theorem send_logs_getElem_lt (r : NotificationRequest) (s : ServiceState) (j : Nat)
    (hj : j < s.logs.length) : (sendNotification r s).2.logs[j]? = s.logs[j]? := by
  rcases sendNotification_log_effect r s with ⟨h, -⟩ | ⟨e, h, -, -⟩
  · rw [h]
  · rw [h, List.getElem?_append_left hj]

/-- A successful send appends exactly one log row. -/
theorem send_success_logs (r : NotificationRequest) (s : ServiceState)
    (h : (sendNotification r s).1.success = true) :
    ∃ e, (sendNotification r s).2.logs = s.logs ++ [e] := by
  rcases sendNotification_log_effect r s with ⟨-, hf⟩ | ⟨e, he, -, -⟩
  · rw [h] at hf
    cases hf
  · exact ⟨e, he⟩

/-- The in-place upgrade changes the entry (its retry count grows). -/
theorem upgradeLog_ne (l : NotificationLog) : upgradeLog l ≠ l := by
  intro h
  have := congrArg NotificationLog.retryCount h
  simp [upgradeLog] at this

/-- Positions outside the retried index set are untouched by the loop. -/
theorem retryLoop_frame (idxs : List Nat) (j : Nat) :
    ∀ (s : ServiceState) (acc : Nat), j ∉ idxs → j < s.logs.length →
      (retryLoop idxs s acc).2.logs[j]? = s.logs[j]? := by
  induction idxs with
  | nil =>
    intro s acc _ _
    simp [retryLoop]
  | cons i rest ih =>
    intro s acc hnot hj
    have hji : j ≠ i := fun h => hnot (by rw [h]; exact List.mem_cons_self i rest)
    have hrest : j ∉ rest := fun h => hnot (List.mem_cons_of_mem i h)
    simp only [retryLoop]
    cases hget : s.logs[i]? with
    | none =>
      dsimp only
      exact ih s acc hrest hj
    | some log =>
      dsimp only
      split
      · have hs1 : j < (sendNotification (reconstructRequest log) s).2.logs.length :=
          lt_of_lt_of_le hj (send_logs_length _ _)
        rw [ih _ _ hrest (by simpa [List.length_set] using hs1)]
        show ((sendNotification (reconstructRequest log) s).2.logs.set i
          (upgradeLog log))[j]? = s.logs[j]?
        rw [List.getElem?_set_ne (Ne.symm hji)]
        exact send_logs_getElem_lt _ _ j hj
      · rw [ih _ _ hrest (lt_of_lt_of_le hj (send_logs_length _ _))]
        exact send_logs_getElem_lt _ _ j hj

/-- The loop returns at least its accumulator and appends at least one
log row per counted success. -/
theorem retryLoop_growth (idxs : List Nat) :
    ∀ (s : ServiceState) (acc : Nat), (∀ i ∈ idxs, i < s.logs.length) →
      acc ≤ (retryLoop idxs s acc).1 ∧
      (retryLoop idxs s acc).1 + s.logs.length ≤
        (retryLoop idxs s acc).2.logs.length + acc := by
  induction idxs with
  | nil =>
    intro s acc _
    refine ⟨le_rfl, ?_⟩
    simp only [retryLoop]
    omega
  | cons i rest ih =>
    intro s acc hbd
    simp only [retryLoop]
    cases hget : s.logs[i]? with
    | none =>
      dsimp only
      exact ih s acc fun k hk => hbd k (List.mem_cons_of_mem i hk)
    | some log =>
      dsimp only
      split
      case isTrue hsucc =>
        obtain ⟨e, he⟩ := send_success_logs _ _ hsucc
        have key : ∀ s₂ : ServiceState, s₂.logs.length = s.logs.length + 1 →
            acc ≤ (retryLoop rest s₂ (acc + 1)).1 ∧
            (retryLoop rest s₂ (acc + 1)).1 + s.logs.length ≤
              (retryLoop rest s₂ (acc + 1)).2.logs.length + acc := by
          intro s₂ hlen
          have hbd2 : ∀ k ∈ rest, k < s₂.logs.length := by
            intro k hk
            rw [hlen]
            exact lt_of_lt_of_le (hbd k (List.mem_cons_of_mem i hk)) (Nat.le_succ _)
          obtain ⟨h1, h2⟩ := ih s₂ (acc + 1) hbd2
          rw [hlen] at h2
          exact ⟨le_trans (Nat.le_succ acc) h1, by omega⟩
        apply key
        show ((sendNotification (reconstructRequest log) s).2.logs.set i
          (upgradeLog log)).length = s.logs.length + 1
        rw [List.length_set, he]
        simp
      case isFalse hfail =>
        have key : ∀ s₂ : ServiceState, s.logs.length ≤ s₂.logs.length →
            (∀ k ∈ rest, k < s₂.logs.length) →
            acc ≤ (retryLoop rest s₂ acc).1 ∧
            (retryLoop rest s₂ acc).1 + s.logs.length ≤
              (retryLoop rest s₂ acc).2.logs.length + acc := by
          intro s₂ hle hbd2
          obtain ⟨h1, h2⟩ := ih s₂ acc hbd2
          exact ⟨h1, by omega⟩
        apply key
        · exact send_logs_length _ _
        · intro k hk
          exact lt_of_lt_of_le (hbd k (List.mem_cons_of_mem i hk))
            (send_logs_length _ _)

/-- Per-index outcome and exact count of the retry loop: each listed
position either keeps its entry or holds its in-place upgrade, and the
returned integer is the accumulator plus the number of upgraded
positions. -/
theorem retryLoop_outcome (idxs : List Nat) :
    ∀ (s : ServiceState) (acc : Nat), idxs.Nodup → (∀ i ∈ idxs, i < s.logs.length) →
      acc ≤ (retryLoop idxs s acc).1 ∧
      (retryLoop idxs s acc).1 = acc + idxs.countP (fun j =>
        decide ((retryLoop idxs s acc).2.logs[j]? = (s.logs[j]?).map upgradeLog)) ∧
      (∀ j ∈ idxs, (retryLoop idxs s acc).2.logs[j]? = s.logs[j]? ∨
        (retryLoop idxs s acc).2.logs[j]? = (s.logs[j]?).map upgradeLog) := by
  induction idxs with
  | nil =>
    intro s acc _ _
    exact ⟨le_rfl, by simp [retryLoop], by simp⟩
  | cons i rest ih =>
    intro s acc hnd hbd
    have hinotr : i ∉ rest := (List.nodup_cons.mp hnd).1
    have hndr : rest.Nodup := (List.nodup_cons.mp hnd).2
    have hilt : i < s.logs.length := hbd i (List.mem_cons_self i rest)
    obtain ⟨log, hget⟩ : ∃ log, s.logs[i]? = some log :=
      ⟨s.logs[i], List.getElem?_eq_getElem hilt⟩
    simp only [retryLoop, hget]
    · split
      case isTrue hsucc =>
        obtain ⟨e, he⟩ := send_success_logs _ _ hsucc
        have key : ∀ s₂ : ServiceState,
            s₂.logs = (sendNotification (reconstructRequest log) s).2.logs.set i
              (upgradeLog log) →
            acc ≤ (retryLoop rest s₂ (acc + 1)).1 ∧
            (retryLoop rest s₂ (acc + 1)).1 = acc + (i :: rest).countP (fun j =>
              decide ((retryLoop rest s₂ (acc + 1)).2.logs[j]? =
                (s.logs[j]?).map upgradeLog)) ∧
            (∀ j ∈ i :: rest,
              (retryLoop rest s₂ (acc + 1)).2.logs[j]? = s.logs[j]? ∨
              (retryLoop rest s₂ (acc + 1)).2.logs[j]? =
                (s.logs[j]?).map upgradeLog) := by
          intro s₂ hs₂
          have hlen₂ : s₂.logs.length = s.logs.length + 1 := by
            rw [hs₂, List.length_set, he]
            simp
          have hbd₂ : ∀ k ∈ rest, k < s₂.logs.length := by
            intro k hk
            rw [hlen₂]
            exact lt_of_lt_of_le (hbd k (List.mem_cons_of_mem i hk)) (Nat.le_succ _)
          have hframe₂ : ∀ k ∈ rest, s₂.logs[k]? = s.logs[k]? := by
            intro k hk
            have hki : i ≠ k := fun hkeq => hinotr (hkeq ▸ hk)
            rw [hs₂, List.getElem?_set_ne hki]
            exact send_logs_getElem_lt _ _ k (hbd k (List.mem_cons_of_mem i hk))
          obtain ⟨h1, h2, h3⟩ := ih s₂ (acc + 1) hndr hbd₂
          have hfin_i : (retryLoop rest s₂ (acc + 1)).2.logs[i]? =
              some (upgradeLog log) := by
            rw [retryLoop_frame rest i s₂ (acc + 1) hinotr (by rw [hlen₂]; omega), hs₂]
            exact List.getElem?_set_self (by
              rw [he, List.length_append, List.length_cons, List.length_nil]
              omega)
          have hpi : decide ((retryLoop rest s₂ (acc + 1)).2.logs[i]? =
              (s.logs[i]?).map upgradeLog) = true := by
            rw [hfin_i, hget]
            simp
          have hcong : rest.countP (fun j =>
              decide ((retryLoop rest s₂ (acc + 1)).2.logs[j]? =
                (s₂.logs[j]?).map upgradeLog)) = rest.countP (fun j =>
              decide ((retryLoop rest s₂ (acc + 1)).2.logs[j]? =
                (s.logs[j]?).map upgradeLog)) := by
            apply List.countP_congr
            intro k hk
            simp [hframe₂ k hk]
          refine ⟨le_trans (Nat.le_succ acc) h1, ?_, ?_⟩
          · rw [h2, List.countP_cons, hcong]
            simp [hpi]
            omega
          · intro j hj
            rcases List.mem_cons.mp hj with rfl | hjr
            · right
              rw [hfin_i, hget]
              rfl
            · rcases h3 j hjr with h | h
              · left
                rw [h]
                exact hframe₂ j hjr
              · right
                rw [h, hframe₂ j hjr]
        apply key
        rfl
      case isFalse hfail =>
        have key : ∀ s₂ : ServiceState,
            s₂ = (sendNotification (reconstructRequest log) s).2 →
            acc ≤ (retryLoop rest s₂ acc).1 ∧
            (retryLoop rest s₂ acc).1 = acc + (i :: rest).countP (fun j =>
              decide ((retryLoop rest s₂ acc).2.logs[j]? =
                (s.logs[j]?).map upgradeLog)) ∧
            (∀ j ∈ i :: rest,
              (retryLoop rest s₂ acc).2.logs[j]? = s.logs[j]? ∨
              (retryLoop rest s₂ acc).2.logs[j]? =
                (s.logs[j]?).map upgradeLog) := by
          intro s₂ hs₂
          have hbd₂ : ∀ k ∈ rest, k < s₂.logs.length := by
            intro k hk
            rw [hs₂]
            exact lt_of_lt_of_le (hbd k (List.mem_cons_of_mem i hk))
              (send_logs_length _ _)
          have hframe₂ : ∀ k, k < s.logs.length → s₂.logs[k]? = s.logs[k]? := by
            intro k hk
            rw [hs₂]
            exact send_logs_getElem_lt _ _ k hk
          obtain ⟨h1, h2, h3⟩ := ih s₂ acc hndr hbd₂
          have hfin_i : (retryLoop rest s₂ acc).2.logs[i]? = some log := by
            rw [retryLoop_frame rest i s₂ acc hinotr (by
              rw [hs₂]
              exact lt_of_lt_of_le hilt (send_logs_length _ _))]
            rw [hframe₂ i hilt, hget]
          have hpi : decide ((retryLoop rest s₂ acc).2.logs[i]? =
              (s.logs[i]?).map upgradeLog) = false := by
            rw [hfin_i, hget]
            simp only [Option.map_some', Option.some.injEq, decide_eq_false_iff_not]
            exact fun h => upgradeLog_ne log h.symm
          have hcong : rest.countP (fun j =>
              decide ((retryLoop rest s₂ acc).2.logs[j]? =
                (s₂.logs[j]?).map upgradeLog)) = rest.countP (fun j =>
              decide ((retryLoop rest s₂ acc).2.logs[j]? =
                (s.logs[j]?).map upgradeLog)) := by
            apply List.countP_congr
            intro k hk
            simp [hframe₂ k (hbd k (List.mem_cons_of_mem i hk))]
          refine ⟨h1, ?_, ?_⟩
          · rw [h2, List.countP_cons, hcong]
            simp [hpi]
          · intro j hj
            rcases List.mem_cons.mp hj with rfl | hjr
            · left
              rw [hfin_i, hget]
            · rcases h3 j hjr with h | h
              · left
                rw [h]
                exact hframe₂ j (hbd j (List.mem_cons_of_mem i hjr))
              · right
                rw [h, hframe₂ j (hbd j (List.mem_cons_of_mem i hjr))]
        apply key
        rfl

/-- Every log row at or beyond a bound `L` clear of the retried indices
keeps retry count zero through the loop, provided that held at the
start: the rows the loop appends are brand-new. -/
theorem retryLoop_fresh (idxs : List Nat) :
    ∀ (s : ServiceState) (acc L : Nat), (∀ i ∈ idxs, i < L) → L ≤ s.logs.length →
      (∀ j e, L ≤ j → s.logs[j]? = some e → e.retryCount = 0) →
      ∀ j e, L ≤ j → (retryLoop idxs s acc).2.logs[j]? = some e →
        e.retryCount = 0 := by
  induction idxs with
  | nil =>
    intro s acc L _ _ hfresh j e hj hsome
    simp only [retryLoop] at hsome
    exact hfresh j e hj hsome
  | cons i rest ih =>
    intro s acc L hbd hL hfresh
    have hiL : i < L := hbd i (List.mem_cons_self i rest)
    obtain ⟨log, hget⟩ : ∃ log, s.logs[i]? = some log :=
      ⟨s.logs[i], List.getElem?_eq_getElem (lt_of_lt_of_le hiL hL)⟩
    simp only [retryLoop, hget]
    split
    case isTrue hsucc =>
      have key : ∀ s₂ : ServiceState,
          s₂.logs = (sendNotification (reconstructRequest log) s).2.logs.set i
            (upgradeLog log) →
          ∀ j e, L ≤ j → (retryLoop rest s₂ (acc + 1)).2.logs[j]? = some e →
            e.retryCount = 0 := by
        intro s₂ hs₂
        refine ih s₂ (acc + 1) L (fun k hk => hbd k (List.mem_cons_of_mem i hk)) ?_ ?_
        · rw [hs₂, List.length_set]
          exact le_trans hL (send_logs_length _ _)
        · intro j e hj hsome
          rw [hs₂, List.getElem?_set_ne (by omega)] at hsome
          rcases sendNotification_log_effect (reconstructRequest log) s with
            ⟨heq, -⟩ | ⟨e', he', hrc', -⟩
          · rw [heq] at hsome
            exact hfresh j e hj hsome
          · rw [he'] at hsome
            by_cases hjlen : j < s.logs.length
            · rw [List.getElem?_append_left hjlen] at hsome
              exact hfresh j e hj hsome
            · rw [List.getElem?_append_right (le_of_not_lt hjlen)] at hsome
              have hmem := List.getElem?_mem hsome
              simp only [List.mem_singleton] at hmem
              rw [hmem]
              exact hrc'
      apply key
      rfl
    case isFalse hfail =>
      have key : ∀ s₂ : ServiceState,
          s₂ = (sendNotification (reconstructRequest log) s).2 →
          ∀ j e, L ≤ j → (retryLoop rest s₂ acc).2.logs[j]? = some e →
            e.retryCount = 0 := by
        intro s₂ hs₂
        refine ih s₂ acc L (fun k hk => hbd k (List.mem_cons_of_mem i hk)) ?_ ?_
        · rw [hs₂]
          exact le_trans hL (send_logs_length _ _)
        · intro j e hj hsome
          rw [hs₂] at hsome
          rcases sendNotification_log_effect (reconstructRequest log) s with
            ⟨heq, -⟩ | ⟨e', he', hrc', -⟩
          · rw [heq] at hsome
            exact hfresh j e hj hsome
          · rw [he'] at hsome
            by_cases hjlen : j < s.logs.length
            · rw [List.getElem?_append_left hjlen] at hsome
              exact hfresh j e hj hsome
            · rw [List.getElem?_append_right (le_of_not_lt hjlen)] at hsome
              have hmem := List.getElem?_mem hsome
              simp only [List.mem_singleton] at hmem
              rw [hmem]
              exact hrc'
      apply key
      rfl

/-- C6: `retryFailedNotifications` selects exactly the positions whose
entry has status `failed` and `retryCount < 3`; an entry with
`retryCount ≥ 3` is never selected, and the whole retry pass leaves it
untouched at its position. -/
theorem c6_retry_ceiling (s : ServiceState) (j : Nat) (log : NotificationLog)
    (hget : s.logs[j]? = some log) (hrc : 3 ≤ log.retryCount) :
    (∀ k, k ∈ retryCandidates s ↔
      ∃ l, s.logs[k]? = some l ∧ l.status = .failed ∧ l.retryCount < 3) ∧
    j ∉ retryCandidates s ∧
    (retryFailedNotifications s).2.logs[j]? = some log := by
  have hj : j < s.logs.length := (List.getElem?_eq_some_iff.mp hget).1
  have hchar : ∀ k, k ∈ retryCandidates s ↔
      ∃ l, s.logs[k]? = some l ∧ l.status = .failed ∧ l.retryCount < 3 := by
    intro k
    constructor
    · intro hk
      have hp := (List.mem_filter.mp hk).2
      cases hsome : s.logs[k]? with
      | none =>
        rw [hsome] at hp
        simp at hp
      | some l =>
        rw [hsome] at hp
        simp only [decide_eq_true_eq] at hp
        exact ⟨l, rfl, hp.1, hp.2⟩
    · rintro ⟨l, hsome, hst, hlt⟩
      refine List.mem_filter.mpr
        ⟨List.mem_range.mpr (List.getElem?_eq_some_iff.mp hsome).1, ?_⟩
      rw [hsome]
      simp [hst, hlt]
  have hnotc : j ∉ retryCandidates s := by
    intro hmem
    obtain ⟨l, hsome, -, hlt⟩ := (hchar j).mp hmem
    rw [hget] at hsome
    cases hsome
    omega
  refine ⟨hchar, hnotc, ?_⟩
  show (retryLoop (retryCandidates s) s 0).2.logs[j]? = some log
  rw [retryLoop_frame (retryCandidates s) j s 0 hnotc hj]
  exact hget

/-- C5: one pass of `retryFailedNotifications` (a) touches only the
positions selected by the `failed`-and-`retryCount < 3` filter,
upgrading each successful one in place to status `sent` with its retry
count incremented (`upgradeLog`), (b) returns exactly the number of
entries so upgraded, (c) appends at least one brand-new log row per
successful retry — two log rows result from one successful retry — and
(d) every appended row has `retryCount = 0`. -/
theorem c5_retry_effect (s : ServiceState) :
    (∀ j, j < s.logs.length →
      (retryFailedNotifications s).2.logs[j]? = s.logs[j]? ∨
      (j ∈ retryCandidates s ∧
        (retryFailedNotifications s).2.logs[j]? = (s.logs[j]?).map upgradeLog)) ∧
    (retryFailedNotifications s).1 = (retryCandidates s).countP (fun j =>
      decide ((retryFailedNotifications s).2.logs[j]? =
        (s.logs[j]?).map upgradeLog)) ∧
    s.logs.length + (retryFailedNotifications s).1 ≤
      (retryFailedNotifications s).2.logs.length ∧
    (∀ j e, s.logs.length ≤ j →
      (retryFailedNotifications s).2.logs[j]? = some e → e.retryCount = 0) := by
  have hnd : (retryCandidates s).Nodup := (List.nodup_range _).filter _
  have hbd : ∀ i ∈ retryCandidates s, i < s.logs.length := by
    intro i hi
    exact List.mem_range.mp (List.mem_filter.mp hi).1
  obtain ⟨h1, h2, h3⟩ := retryLoop_outcome (retryCandidates s) s 0 hnd hbd
  obtain ⟨g1, g2⟩ := retryLoop_growth (retryCandidates s) s 0 hbd
  simp only [retryFailedNotifications]
  refine ⟨?_, by simpa using h2, by omega, ?_⟩
  · intro j hj
    by_cases hjc : j ∈ retryCandidates s
    · rcases h3 j hjc with h | h
      · exact Or.inl h
      · exact Or.inr ⟨hjc, h⟩
    · exact Or.inl (retryLoop_frame (retryCandidates s) j s 0 hjc hj)
  · refine retryLoop_fresh (retryCandidates s) s 0 s.logs.length hbd le_rfl ?_
    intro j e hj hsome
    rw [List.getElem?_eq_none (by omega)] at hsome
    cases hsome

/-- C5 witness: the one-failed-row state with an always-successful
delivery oracle: the original row is upgraded in place and the pass
reports one successful retry. -/
theorem c5_witness :
    0 < retryState.logs.length ∧
    ((retryFailedNotifications retryState).2.logs[0]? = retryState.logs[0]? ∨
      (0 ∈ retryCandidates retryState ∧
        (retryFailedNotifications retryState).2.logs[0]? =
          (retryState.logs[0]?).map upgradeLog)) ∧
    (retryFailedNotifications retryState).1 = 1 ∧
    (retryFailedNotifications retryState).2.logs.length = 2 :=
  ⟨by decide, (c5_retry_effect retryState).1 0 (by decide), rfl, rfl⟩

/-- C6 witness: a failed row at the retry ceiling is skipped and
untouched. -/
theorem c6_witness :
    maxedState.logs[0]? = some maxedLog ∧ 3 ≤ maxedLog.retryCount ∧
    (0 ∉ retryCandidates maxedState ∧
      (retryFailedNotifications maxedState).2.logs[0]? = some maxedLog) :=
  ⟨rfl, by decide,
    (c6_retry_ceiling maxedState 0 maxedLog rfl (by decide)).2⟩
